import Mathlib

/-!
# Verification of the Vitrus SDK session/correlation layer

A shallow embedding of the `Vitrus` class (WebSocket session layer of the
vitrus-sdk TypeScript repository): the pending-request correlation table,
the inbound message router (`handleMessage` / `handleCommand`), the
connection-lifecycle handlers (`connect`, the `close` handler), command
registration (`Actor.on`, `registerActorCommandHandler`,
`registerPendingCommands`) and the outbound call paths (`runCommand`,
`workflow`, `list_workflows`).

JavaScript `Map` objects are embedded as association lists with JS `Map`
semantics: `set` overwrites the first matching key in place (preserving
insertion order) and otherwise appends; `get` returns the first match;
`delete` removes the matching entry.  Promise continuations are embedded
as numeric tokens; invoking a stored `resolve`/`reject` is an emitted
`Event`.  Values are a JSON-like inductive type.  Nondeterministic inputs
of the code (`Math.random`, handler results, transport send outcomes) are
oracle parameters.
-/

namespace Vitrus

/-- JSON-like runtime values (`any` in the TypeScript source). -/
inductive Value where
  | null
  | bool (b : Bool)
  | num (n : Int)
  | str (s : String)
  | arr (elems : List Value)

/-- JS `Map.get`: first entry with the given key. -/
def mapGet {β : Type} (k : String) : List (String × β) → Option β
  | [] => none
  | (k1, v) :: rest => if k1 = k then some v else mapGet k rest

/-- JS `Map.set`: overwrite the first entry with the key in place, else append. -/
def mapSet {β : Type} (k : String) (v : β) : List (String × β) → List (String × β)
  | [] => [(k, v)]
  | (k1, v1) :: rest => if k1 = k then (k, v) :: rest else (k1, v1) :: mapSet k v rest

/-- JS `Map.delete`: remove the first entry with the key. -/
def mapDelete {β : Type} (k : String) : List (String × β) → List (String × β)
  | [] => []
  | (k1, v1) :: rest => if k1 = k then rest else (k1, v1) :: mapDelete k rest

/-- JS `Map.has`. -/
def mapHas {β : Type} (k : String) (m : List (String × β)) : Bool :=
  (mapGet k m).isSome

/-- `HANDSHAKE_RESPONSE` frame fields (server→client). -/
structure HandshakeResponseMessage where
  success : Bool
  clientId : String
  error_code : Option String
  redisChannel : Option String
  message : Option String
  actorInfo : Option (Value × List (String × List String))

/-- `COMMAND` frame fields (server→client). -/
structure CommandMessage where
  targetActorName : String
  commandName : String
  args : List Value
  requestId : String
  sourceChannel : Option String

/-- `RESPONSE` frame fields. -/
structure ResponseMessage where
  targetChannel : String
  requestId : String
  result : Option Value
  error : Option String

/-- `REGISTER_COMMAND` frame fields (client→server). -/
structure RegisterCommandMessage where
  actorName : String
  commandName : String
  parameterTypes : List String

/-- `WORKFLOW_RESULT` frame fields (server→client). -/
structure WorkflowResultMessage where
  requestId : String
  result : Option Value
  error : Option String

/-- `WORKFLOW_LIST` frame fields (server→client); each workflow definition
is kept abstract as a `Value`. -/
structure WorkflowListMessage where
  requestId : String
  workflows : Option (List Value)
  error : Option String

/-- JS truthiness of an optional string field (`if (error) ...`):
absent, `null`/`undefined` and the empty string are falsy. -/
def strTruthy : Option String → Bool
  | none => false
  | some s => s ≠ ""

/-- JS `a || b` for an optional string against a string default:
a missing or empty string falls back to the default. -/
def jsOr (a : Option String) (b : String) : String :=
  match a with
  | some s => if s = "" then b else s
  | none => b

/-- Observable effects of one synchronous processing step: invoking a stored
promise continuation (identified by its numeric token) with a resolution
value or a rejection message, or rejecting the in-flight connection promise. -/
inductive Event where
  | resolved (cont : Nat) (v : Option Value)
  | rejected (cont : Nat) (err : String)
  | connectionRejected (p : Nat) (err : String)

/-- The mutable fields of the `Vitrus` class that the verified operations
touch.  Promise continuations (`{resolve, reject}` records) and command
handler closures are identified by numeric tokens. -/
structure SessionState where
  apiKey : String
  worldId : Option String
  clientId : String
  connected : Bool
  authenticated : Bool
  pendingRequests : List (String × Nat)
  actorCommandHandlers : List (String × List (String × Nat))
  actorCommandSignatures : List (String × List (String × List String))
  actorMetadata : List (String × Value)
  actorName : Option String
  connectionPromise : Option Nat
  connectionReject : Option Nat
  redisChannel : Option String

/-- `generateRequestId` (src/unnamed/part_001 lines 716-720): the id is
`Math.random().toString(36).substring(2, 15)` — a string drawn from the
random source.  The function reads no session state; in particular it never
consults `pendingRequests`, so nothing prevents the drawn id from colliding
with an id that is currently pending. -/
def generateRequestId (randomSuffix : String) : String :=
  randomSuffix

/-- The `RESPONSE` branch of `handleMessage` (lines 598-612): look up the
pending entry for `requestId`; if present, reject on a truthy `error` and
resolve with `result` otherwise, and delete the entry; if absent, do
nothing.  Returns the new pending table and the emitted events. -/
def applyResponse (pending : List (String × Nat)) (m : ResponseMessage) :
    List (String × Nat) × List Event :=
  match mapGet m.requestId pending with
  | none => (pending, [])
  | some c =>
      (mapDelete m.requestId pending,
       if strTruthy m.error then [.rejected c (jsOr m.error "")]
       else [.resolved c m.result])

/-- The `WORKFLOW_RESULT` branch of `handleMessage` (lines 616-630);
identical correlation logic to the `RESPONSE` branch. -/
def applyWorkflowResult (pending : List (String × Nat)) (m : WorkflowResultMessage) :
    List (String × Nat) × List Event :=
  match mapGet m.requestId pending with
  | none => (pending, [])
  | some c =>
      (mapDelete m.requestId pending,
       if strTruthy m.error then [.rejected c (jsOr m.error "")]
       else [.resolved c m.result])

/-- The `WORKFLOW_LIST` branch of `handleMessage` (lines 633-647): on a
truthy `error` reject, otherwise resolve with `workflows || []` (a missing
workflows field resolves to the empty array, never to `undefined`). -/
def applyWorkflowList (pending : List (String × Nat)) (m : WorkflowListMessage) :
    List (String × Nat) × List Event :=
  match mapGet m.requestId pending with
  | none => (pending, [])
  | some c =>
      (mapDelete m.requestId pending,
       if strTruthy m.error then [.rejected c (jsOr m.error "")]
       else [.resolved c (some (.arr (m.workflows.getD [])))])

/-- Primitive correlator operations in the textual order the source
performs them, used to state in which order a branch invokes the stored
continuation and deletes the table entry. -/
inductive CorrelatorAction where
  | invoke (cont : Nat)
  | deleteEntry (requestId : String)
  deriving DecidableEq, Repr

/-- Ordered primitive actions of the `RESPONSE` branch (lines 602-610): the
source first calls `pending.reject(...)` or `pending.resolve(...)` and only
then `this.pendingRequests.delete(requestId)`. -/
def responseBranchActions (pending : List (String × Nat)) (m : ResponseMessage) :
    List CorrelatorAction :=
  match mapGet m.requestId pending with
  | none => []
  | some c => [.invoke c, .deleteEntry m.requestId]

/-- Ordered primitive actions of the `WORKFLOW_RESULT` branch (lines
620-628), same shape as the `RESPONSE` branch. -/
def workflowResultBranchActions (pending : List (String × Nat)) (m : WorkflowResultMessage) :
    List CorrelatorAction :=
  match mapGet m.requestId pending with
  | none => []
  | some c => [.invoke c, .deleteEntry m.requestId]

/-- `handleCommand` (lines 656-693): look up
`actorCommandHandlers.get(targetActorName)?.get(commandName)`; when found,
run the handler (its outcome supplied by the oracle `henv`, covering both
synchronous throws and asynchronous rejections, both funneled through the
`Promise.resolve().then().catch()` chain) and send exactly one `RESPONSE`
frame: `result` on success, `error: message` on failure, with
`targetChannel: sourceChannel || ''`.  When the actor or command is
unknown, only a debug log happens and no frame is sent (`none`). -/
def handleCommand (handlers : List (String × List (String × Nat)))
    (henv : Nat → List Value → Except String Value) (m : CommandMessage) :
    Option ResponseMessage :=
  match mapGet m.targetActorName handlers with
  | none => none
  | some actorHandlers =>
    match mapGet m.commandName actorHandlers with
    | none => none
    | some h =>
      match henv h m.args with
      | .ok result =>
          some { targetChannel := jsOr m.sourceChannel ""
                 requestId := m.requestId
                 result := some result
                 error := none }
      | .error e =>
          some { targetChannel := jsOr m.sourceChannel ""
                 requestId := m.requestId
                 result := none
                 error := some e }

/-- The `ws.on('close')` handler (lines 413-436).  `wasConnected` is
snapshotted, `connected` and `authenticated` are cleared.  If the session
had been connected, every pending request is rejected with the
ConnectionLost error and deleted (the loop rejects then deletes each entry,
ending with an empty table); otherwise the in-flight connection promise, if
still armed, is rejected.  In both cases `connectionPromise` is nulled so a
later `connect` can start over. -/
def onClose (s : SessionState) : SessionState × List Event :=
  let wasConnected := s.connected
  if wasConnected then
    ({ s with connected := false, authenticated := false,
              pendingRequests := [], connectionPromise := none },
     s.pendingRequests.map (fun e =>
       .rejected e.2 "Connection Lost: The connection to the Vitrus server was lost unexpectedly."))
  else
    match s.connectionReject with
    | some r =>
        ({ s with connected := false, authenticated := false,
                  connectionReject := none, connectionPromise := none },
         [.connectionRejected r "Connection Attempt Failed: WebSocket closed before connection could be established."])
    | none =>
        ({ s with connected := false, authenticated := false,
                  connectionPromise := none }, [])

/-- JS `a || b` on two optional strings (`actorName || this.actorName`):
a missing or empty first operand falls back to the second. -/
def jsOrOpt (a b : Option String) : Option String :=
  match a with
  | some s => if s = "" then b else some s
  | none => b

/-- `connect` (src/unnamed/part_001 lines 307-326).  If `connectionPromise`
is non-null the existing promise is returned unchanged and nothing else
happens.  Otherwise the desired actor identity and metadata are recorded, a
fresh connection promise is created (its reject stored in
`_connectionReject`) and `_establishWebSocketConnection` opens a new
transport.  The returned `Bool` records whether a new transport was opened
(`new WS(...)` executed). -/
def connect (s : SessionState) (actorName : Option String) (metadata : Option Value)
    (freshPromise : Nat) : SessionState × Nat × Bool :=
  match s.connectionPromise with
  | some p => (s, p, false)
  | none =>
      let an := jsOrOpt actorName s.actorName
      let s1 := { s with actorName := an }
      let s2 :=
        match an, metadata with
        | some n, some md =>
            if n = "" then s1
            else { s1 with actorMetadata := mapSet n md s1.actorMetadata }
        | _, _ => s1
      ({ s2 with connectionPromise := some freshPromise,
                 connectionReject := some freshPromise },
       freshPromise, true)

/-- `registerActorCommandHandler` (lines 747-763): store the handler and
the parameter signature in the two nested per-actor maps, creating the
inner maps on first use. -/
def registerActorCommandHandler (s : SessionState) (actorName commandName : String)
    (handlerId : Nat) (parameterTypes : List String) : SessionState :=
  let handlers := (mapGet actorName s.actorCommandHandlers).getD []
  let s1 := { s with
    actorCommandHandlers :=
      mapSet actorName (mapSet commandName handlerId handlers) s.actorCommandHandlers }
  let sigs := (mapGet actorName s1.actorCommandSignatures).getD []
  { s1 with
    actorCommandSignatures :=
      mapSet actorName (mapSet commandName parameterTypes sigs) s1.actorCommandSignatures }

/-- `Actor.on` (lines 160-177): always store the handler locally via
`registerActorCommandHandler`; additionally send one `REGISTER_COMMAND`
frame right away only when the session is currently authenticated as this
very actor.  The emitted frame list is returned. -/
def actorOn (s : SessionState) (name commandName : String) (handlerId : Nat)
    (parameterTypes : List String) : SessionState × List RegisterCommandMessage :=
  let s1 := registerActorCommandHandler s name commandName handlerId parameterTypes
  if s1.authenticated ∧ s1.actorName = some name then
    (s1, [{ actorName := name, commandName := commandName, parameterTypes := parameterTypes }])
  else
    (s1, [])

/-- The success branch run on a `HANDSHAKE_RESPONSE` (lines 558-587 of
`handleMessage`, identically lines 466-499 of `waitForAuthentication`):
store `clientId` and `redisChannel`, set `authenticated`; when actor info
is present and an actor identity is set, overwrite that actor's metadata
and merge the server's `registeredCommands` into the local signature map
(handlers are untouched).  A failure response only logs. -/
def handshakeSuccessUpdate (s : SessionState) (resp : HandshakeResponseMessage) :
    SessionState :=
  if resp.success then
    let s1 := { s with clientId := resp.clientId, redisChannel := resp.redisChannel,
                       authenticated := true }
    match resp.actorInfo, s1.actorName with
    | some (md, regCmds), some an =>
        let s2 := { s1 with actorMetadata := mapSet an md s1.actorMetadata }
        let sigs := (mapGet an s2.actorCommandSignatures).getD []
        let sigs2 := regCmds.foldl (fun acc c => mapSet c.1 c.2 acc) sigs
        { s2 with actorCommandSignatures := mapSet an sigs2 s2.actorCommandSignatures }
    | _, _ => s1
  else s

/-- `registerPendingCommands` (lines 937-953): after authenticating as
`actorName`, walk that actor's signature map in iteration order and send
one `REGISTER_COMMAND` frame for every entry whose handler still exists;
return nothing if either nested map is missing. -/
def registerPendingCommands (s : SessionState) (actorName : String) :
    List RegisterCommandMessage :=
  match mapGet actorName s.actorCommandHandlers,
        mapGet actorName s.actorCommandSignatures with
  | some handlers, some signatures =>
      (signatures.filter (fun kv => mapHas kv.1 handlers)).map
        (fun kv => { actorName := actorName, commandName := kv.1,
                     parameterTypes := kv.2 })
  | _, _ => []

/-- Substring check (JS `String.prototype.includes`). -/
def containsSubstr (hay sub : String) : Bool :=
  hay.data.tails.any (fun t => sub.data.isPrefixOf t)

/-- The failure branch of `waitForAuthentication` (lines 500-519): start
from `response.message || 'Authentication failed'`, then override with an
error_code-specific message for `invalid_api_key`, `world_not_found` and
`world_not_found_handshake`, with a final textual fallback match for
"Actors require a worldId".  The in-flight connect is rejected with the
resulting message. -/
def authFailureMessage (resp : HandshakeResponseMessage) : String :=
  let errorMessage := jsOr resp.message "Authentication failed"
  if resp.error_code = some "invalid_api_key" then
    "Authentication Failed: The provided API Key is invalid or expired."
  else if resp.error_code = some "world_not_found" then
    jsOr resp.message "Connection Failed: The world specified in the connection URL was not found."
  else if resp.error_code = some "world_not_found_handshake" then
    jsOr resp.message "Connection Failed: The world specified in the handshake message was not found."
  else if containsSubstr errorMessage "Actors require a worldId" then
    "Connection Failed: An actor connection requires a valid World ID to be specified."
  else errorMessage

/-- `WORKFLOW` frame fields (client→server). -/
structure WorkflowMessage where
  workflowName : String
  args : Value
  requestId : String

/-- `LIST_WORKFLOWS` frame fields (client→server). -/
structure ListWorkflowsMessage where
  requestId : String

/-- Outcome of an outbound call path, as observed by the caller's promise. -/
inductive CallOutcome where
  | noWorldError (msg : String)
  | authFailed (err : String)
  | sent (rid : String)
  | sendFailed (err : String)

/-- `runCommand` (lines 815-849): throw when no `worldId` is configured;
otherwise authenticate if needed (`authFn` is the oracle for
`await this.authenticate()`), generate a request id, record the pending
continuation, build the `COMMAND` frame and send it; a send failure
deletes the entry again and rejects this call with the send error.  The
returned frame is the one handed to `sendMessage`, `none` when the path
never reaches the send. -/
def runCommand (s : SessionState) (actorName commandName : String) (args : List Value)
    (authFn : SessionState → SessionState × Except String Unit)
    (rid : String) (cont : Nat) (sendResult : Except String Unit) :
    SessionState × CallOutcome × Option CommandMessage :=
  if s.worldId.isNone then
    (s, .noWorldError "Vitrus SDK requires a worldId to run commands on actors.", none)
  else
    let ar := if s.authenticated then (s, Except.ok ()) else authFn s
    match ar.2 with
    | .error e => (ar.1, .authFailed e, none)
    | .ok _ =>
      let s2 := { ar.1 with pendingRequests := mapSet rid cont ar.1.pendingRequests }
      let frame : CommandMessage :=
        { targetActorName := actorName, commandName := commandName, args := args,
          requestId := rid, sourceChannel := none }
      match sendResult with
      | .ok _ => (s2, .sent rid, some frame)
      | .error e =>
          ({ s2 with pendingRequests := mapDelete rid s2.pendingRequests },
           .sendFailed e, some frame)

/-- `workflow` (lines 854-881): same correlation pattern as `runCommand`
but with no `worldId` requirement. -/
def workflowCall (s : SessionState) (workflowName : String) (args : Value)
    (authFn : SessionState → SessionState × Except String Unit)
    (rid : String) (cont : Nat) (sendResult : Except String Unit) :
    SessionState × CallOutcome × Option WorkflowMessage :=
  let ar := if s.authenticated then (s, Except.ok ()) else authFn s
  match ar.2 with
  | .error e => (ar.1, .authFailed e, none)
  | .ok _ =>
    let s2 := { ar.1 with pendingRequests := mapSet rid cont ar.1.pendingRequests }
    let frame : WorkflowMessage :=
      { workflowName := workflowName, args := args, requestId := rid }
    match sendResult with
    | .ok _ => (s2, .sent rid, some frame)
    | .error e =>
        ({ s2 with pendingRequests := mapDelete rid s2.pendingRequests },
         .sendFailed e, some frame)

/-- `list_workflows` (lines 906-931): same correlation pattern, sending a
`LIST_WORKFLOWS` frame. -/
def listWorkflowsCall (s : SessionState)
    (authFn : SessionState → SessionState × Except String Unit)
    (rid : String) (cont : Nat) (sendResult : Except String Unit) :
    SessionState × CallOutcome × Option ListWorkflowsMessage :=
  let ar := if s.authenticated then (s, Except.ok ()) else authFn s
  match ar.2 with
  | .error e => (ar.1, .authFailed e, none)
  | .ok _ =>
    let s2 := { ar.1 with pendingRequests := mapSet rid cont ar.1.pendingRequests }
    let frame : ListWorkflowsMessage := { requestId := rid }
    match sendResult with
    | .ok _ => (s2, .sent rid, some frame)
    | .error e =>
        ({ s2 with pendingRequests := mapDelete rid s2.pendingRequests },
         .sendFailed e, some frame)

/-- Inbound frames, classified by their `type` discriminator. -/
inductive InMessage where
  | handshakeResponse (m : HandshakeResponseMessage)
  | command (m : CommandMessage)
  | response (m : ResponseMessage)
  | workflowResult (m : WorkflowResultMessage)
  | workflowList (m : WorkflowListMessage)
  | other (type : String)

/-- `handleMessage` (lines 554-654): dispatch on the frame type to the
handshake update, `handleCommand`, or the three correlation branches;
unmatched types go to the application-level listeners (no session-state
effect).  Returns the new state, the emitted continuation events and the
`RESPONSE` frame produced by command handling, if any. -/
def handleMessage (s : SessionState) (henv : Nat → List Value → Except String Value) :
    InMessage → SessionState × List Event × Option ResponseMessage
  | .handshakeResponse m => (handshakeSuccessUpdate s m, [], none)
  | .command m => (s, [], handleCommand s.actorCommandHandlers henv m)
  | .response m =>
      let r := applyResponse s.pendingRequests m
      ({ s with pendingRequests := r.1 }, r.2, none)
  | .workflowResult m =>
      let r := applyWorkflowResult s.pendingRequests m
      ({ s with pendingRequests := r.1 }, r.2, none)
  | .workflowList m =>
      let r := applyWorkflowList s.pendingRequests m
      ({ s with pendingRequests := r.1 }, r.2, none)
  | .other _ => (s, [], none)

/-- The continuation token an event refers to. -/
def contOfD : Event → Nat
  | .resolved c _ => c
  | .rejected c _ => c
  | .connectionRejected p _ => p

/-- Interleaved correlation-relevant steps of a session: a `runCommand` /
`workflow` / `list_workflows` call storing its continuation under a freshly
generated request id (`this.pendingRequests.set(requestId, {resolve,
reject})`), or the arrival of a `RESPONSE` frame. -/
inductive SessionStep where
  | allocPending (rid : String) (cont : Nat)
  | recvResponse (m : ResponseMessage)

/-- Effect of one step on the pending table. -/
def stepExec (p : List (String × Nat)) : SessionStep → List (String × Nat) × List Event
  | .allocPending rid c => (mapSet rid c p, [])
  | .recvResponse m => applyResponse p m

/-- Run a list of steps, collecting emitted events in order. -/
def runSteps (p : List (String × Nat)) : List SessionStep → List (String × Nat) × List Event
  | [] => (p, [])
  | st :: rest =>
      ((runSteps (stepExec p st).1 rest).1,
       (stepExec p st).2 ++ (runSteps (stepExec p st).1 rest).2)

/-- Continuation tokens consumed by allocation steps. -/
def allocConts : List SessionStep → List Nat
  | [] => []
  | .allocPending _ c :: rest => c :: allocConts rest
  | .recvResponse _ :: rest => allocConts rest

/-- Well-formed step lists: every allocated request id is fresh relative to
the pending table at its point (the collision-freedom the spec asserts of
`generateRequestId` but the code does not enforce), and every allocation
uses a globally fresh promise continuation (true of the source, where each
call constructs a new `Promise`). -/
def WFSteps : List (String × Nat) → List Nat → List SessionStep → Prop
  | _, _, [] => True
  | p, used, .allocPending rid c :: rest =>
      mapGet rid p = none ∧ c ∉ used ∧ WFSteps (mapSet rid c p) (c :: used) rest
  | p, used, .recvResponse m :: rest => WFSteps (applyResponse p m).1 used rest

/-- A sequence of `Actor.on` registrations on the same actor handle,
collecting every `REGISTER_COMMAND` frame emitted along the way.  Each
registration is (commandName, handler token, extracted parameter types). -/
def applyRegs (s : SessionState) (actorName : String) :
    List (String × Nat × List String) → SessionState × List RegisterCommandMessage
  | [] => (s, [])
  | r :: rest =>
      ((applyRegs (actorOn s actorName r.1 r.2.1 r.2.2).1 actorName rest).1,
       (actorOn s actorName r.1 r.2.1 r.2.2).2 ++
         (applyRegs (actorOn s actorName r.1 r.2.1 r.2.2).1 actorName rest).2)

/-- A concrete connected session used to instantiate theorems. -/
def sampleState : SessionState :=
  { apiKey := "k", worldId := some "w", clientId := "c1", connected := true,
    authenticated := true, pendingRequests := [("a", 0), ("b", 1)],
    actorCommandHandlers := [], actorCommandSignatures := [], actorMetadata := [],
    actorName := none, connectionPromise := none, connectionReject := none,
    redisChannel := none }

/-- A concrete well-formed correlation trace: one allocation and its
matching response. -/
def c1WitnessSteps : List SessionStep :=
  [.allocPending "a" 0,
   .recvResponse { targetChannel := "", requestId := "a",
                   result := some (.str "x"), error := none }]

/-- An unauthenticated session used for the registration-replay scenario. -/
def c5State : SessionState := { sampleState with authenticated := false }

/-- Two commands registered via Actor.on before authentication. -/
def c5Regs : List (String × Nat × List String) :=
  [("wave", 10, ["string"]), ("move", 11, [])]

/-- A successful handshake response restoring one server-known command
("fly") that has no local handler. -/
def c5Resp : HandshakeResponseMessage :=
  { success := true, clientId := "cid", error_code := none, redisChannel := none,
    message := none, actorInfo := some (Value.null, [("fly", ["any"])]) }

theorem mapGet_eq_none_of_not_mem {β : Type} (k : String) (m : List (String × β))
    (h : k ∉ m.map Prod.fst) : mapGet k m = none := by
  induction m with
  | nil => rfl
  | cons hd tl ih =>
    obtain ⟨k1, v1⟩ := hd
    simp only [List.map_cons, List.mem_cons, not_or] at h
    show (if k1 = k then some v1 else mapGet k tl) = none
    rw [if_neg (Ne.symm h.1)]
    exact ih h.2

theorem mapGet_mapSet_same {β : Type} (k : String) (v : β) (m : List (String × β)) :
    mapGet k (mapSet k v m) = some v := by
  induction m with
  | nil => simp [mapSet, mapGet]
  | cons hd tl ih =>
    obtain ⟨k1, v1⟩ := hd
    by_cases h : k1 = k <;> simp [mapSet, mapGet, h, ih]

theorem mapGet_mapSet_other {β : Type} (k k2 : String) (v : β) (m : List (String × β))
    (hne : k2 ≠ k) : mapGet k2 (mapSet k v m) = mapGet k2 m := by
  have hne2 : ¬ (k = k2) := fun h => hne h.symm
  induction m with
  | nil => simp [mapSet, mapGet, hne2]
  | cons hd tl ih =>
    obtain ⟨k1, v1⟩ := hd
    by_cases h : k1 = k
    · subst h
      simp [mapSet, mapGet, hne2]
    · simp only [mapSet, if_neg h, mapGet]
      by_cases h2 : k1 = k2 <;> simp [h2, ih]

theorem mapGet_mapDelete_same {β : Type} (k : String) (m : List (String × β))
    (hnd : (m.map Prod.fst).Nodup) : mapGet k (mapDelete k m) = none := by
  induction m with
  | nil => rfl
  | cons hd tl ih =>
    obtain ⟨k1, v1⟩ := hd
    simp only [List.map_cons, List.nodup_cons] at hnd
    by_cases h : k1 = k
    · subst h
      have h1 : mapDelete k1 ((k1, v1) :: tl) = tl := by simp [mapDelete]
      rw [h1]
      exact mapGet_eq_none_of_not_mem k1 tl hnd.1
    · have h1 : mapDelete k ((k1, v1) :: tl) = (k1, v1) :: mapDelete k tl := by
        simp [mapDelete, h]
      rw [h1]
      show (if k1 = k then some v1 else mapGet k (mapDelete k tl)) = none
      rw [if_neg h]
      exact ih hnd.2

theorem mapGet_mapDelete_other {β : Type} (k k2 : String) (m : List (String × β))
    (hne : k2 ≠ k) : mapGet k2 (mapDelete k m) = mapGet k2 m := by
  induction m with
  | nil => rfl
  | cons hd tl ih =>
    obtain ⟨k1, v1⟩ := hd
    by_cases h : k1 = k
    · subst h
      have h1 : mapDelete k1 ((k1, v1) :: tl) = tl := by simp [mapDelete]
      rw [h1]
      show mapGet k2 tl = if k1 = k2 then some v1 else mapGet k2 tl
      rw [if_neg (Ne.symm hne)]
    · have h1 : mapDelete k ((k1, v1) :: tl) = (k1, v1) :: mapDelete k tl := by
        simp [mapDelete, h]
      rw [h1]
      show (if k1 = k2 then some v1 else mapGet k2 (mapDelete k tl)) =
        if k1 = k2 then some v1 else mapGet k2 tl
      by_cases h2 : k1 = k2 <;> simp [h2, ih]

theorem mem_keys_mapSet {β : Type} (k x : String) (v : β) (m : List (String × β)) :
    x ∈ (mapSet k v m).map Prod.fst ↔ x ∈ m.map Prod.fst ∨ x = k := by
  induction m with
  | nil => simp [mapSet, eq_comm]
  | cons hd tl ih =>
    obtain ⟨k1, v1⟩ := hd
    by_cases h : k1 = k
    · subst h
      have h1 : mapSet k1 v ((k1, v1) :: tl) = (k1, v) :: tl := by simp [mapSet]
      rw [h1]
      simp only [List.map_cons, List.mem_cons]
      tauto
    · have h1 : mapSet k v ((k1, v1) :: tl) = (k1, v1) :: mapSet k v tl := by
        simp [mapSet, h]
      rw [h1]
      simp only [List.map_cons, List.mem_cons, ih]
      tauto

theorem mapSet_keys_nodup {β : Type} (k : String) (v : β) (m : List (String × β))
    (hnd : (m.map Prod.fst).Nodup) : ((mapSet k v m).map Prod.fst).Nodup := by
  induction m with
  | nil => simp [mapSet]
  | cons hd tl ih =>
    obtain ⟨k1, v1⟩ := hd
    simp only [List.map_cons, List.nodup_cons] at hnd
    by_cases h : k1 = k
    · subst h
      have h1 : mapSet k1 v ((k1, v1) :: tl) = (k1, v) :: tl := by simp [mapSet]
      rw [h1]
      simpa using hnd
    · have h1 : mapSet k v ((k1, v1) :: tl) = (k1, v1) :: mapSet k v tl := by
        simp [mapSet, h]
      rw [h1]
      simp only [List.map_cons, List.nodup_cons]
      refine ⟨?_, ih hnd.2⟩
      intro hmem
      rcases (mem_keys_mapSet k k1 v tl).mp hmem with h3 | h3
      · exact hnd.1 h3
      · exact h h3

theorem mapGet_none_not_mem {β : Type} (k : String) (m : List (String × β))
    (h : mapGet k m = none) : k ∉ m.map Prod.fst := by
  induction m with
  | nil => simp
  | cons hd tl ih =>
    obtain ⟨k1, v1⟩ := hd
    simp only [mapGet] at h
    by_cases h1 : k1 = k
    · simp [h1] at h
    · simp only [if_neg h1] at h
      simp only [List.map_cons, List.mem_cons, not_or]
      exact ⟨Ne.symm h1, ih h⟩

theorem mapSet_of_get_none {β : Type} (k : String) (v : β) (m : List (String × β))
    (h : mapGet k m = none) : mapSet k v m = m ++ [(k, v)] := by
  induction m with
  | nil => rfl
  | cons hd tl ih =>
    obtain ⟨k1, v1⟩ := hd
    simp only [mapGet] at h
    by_cases h1 : k1 = k
    · simp [h1] at h
    · simp only [if_neg h1] at h
      simp only [mapSet, if_neg h1, List.cons_append, List.cons.injEq, true_and]
      exact ih h

theorem perm_cons_mapDelete {β : Type} (k : String) (v : β) (m : List (String × β))
    (h : mapGet k m = some v) : m.Perm ((k, v) :: mapDelete k m) := by
  induction m with
  | nil => simp [mapGet] at h
  | cons hd tl ih =>
    obtain ⟨k1, v1⟩ := hd
    simp only [mapGet] at h
    by_cases h1 : k1 = k
    · subst h1
      simp at h
      subst h
      have h2 : mapDelete k1 ((k1, v1) :: tl) = tl := by simp [mapDelete]
      rw [h2]
    · simp only [if_neg h1] at h
      have h2 : mapDelete k ((k1, v1) :: tl) = (k1, v1) :: mapDelete k tl := by
        simp [mapDelete, h1]
      rw [h2]
      exact (List.Perm.cons _ (ih h)).trans (List.Perm.swap _ _ _)

theorem mapGet_some_mem_snd {β : Type} (k : String) (v : β) (m : List (String × β))
    (h : mapGet k m = some v) : v ∈ m.map Prod.snd := by
  have hp := perm_cons_mapDelete k v m h
  have := hp.map Prod.snd
  exact this.mem_iff.mpr (List.mem_cons_self _ _)

/-- Under a well-formed step list, no continuation allocated later is
already in the used set. -/
theorem allocConts_disjoint_used (steps : List SessionStep) :
    ∀ (p : List (String × Nat)) (used : List Nat), WFSteps p used steps →
      ∀ c ∈ allocConts steps, c ∉ used := by
  induction steps with
  | nil => intro p used _ c hc; simp [allocConts] at hc
  | cons st rest ih =>
    intro p used hwf c hc
    cases st with
    | allocPending rid c1 =>
      simp only [WFSteps] at hwf
      simp only [allocConts, List.mem_cons] at hc
      rcases hc with hc | hc
      · subst hc; exact hwf.2.1
      · intro hmem
        exact ih _ _ hwf.2.2 c hc (List.mem_cons_of_mem _ hmem)
    | recvResponse m =>
      simp only [WFSteps] at hwf
      simp only [allocConts] at hc
      exact ih _ _ hwf c hc

/-- The events emitted by a correlation branch at a hit all carry the hit
continuation. -/
theorem applyResponse_events_conts (p : List (String × Nat)) (m : ResponseMessage)
    (c : Nat) (h : mapGet m.requestId p = some c) :
    (applyResponse p m).2.map contOfD = [c] ∧ (applyResponse p m).1 = mapDelete m.requestId p := by
  simp only [applyResponse, h]
  by_cases he : strTruthy m.error <;> simp [he, contOfD]

/-- Invariant of well-formed correlation traces: the continuations invoked
by the emitted events together with the continuations still pending at the
end are pairwise distinct (hence no continuation is ever invoked twice),
and every such continuation stems from the initial table or from an
allocation step. -/
theorem runSteps_invariant (steps : List SessionStep) :
    ∀ (p : List (String × Nat)) (used : List Nat),
      WFSteps p used steps →
      (∀ x, x ∈ p.map Prod.snd → x ∈ used) →
      (p.map Prod.snd).Nodup →
      ((runSteps p steps).2.map contOfD ++ (runSteps p steps).1.map Prod.snd).Nodup ∧
      (∀ x, x ∈ (runSteps p steps).2.map contOfD ++ (runSteps p steps).1.map Prod.snd →
        x ∈ p.map Prod.snd ∨ x ∈ allocConts steps) := by
  induction steps with
  | nil =>
    intro p used _ _ hnd
    refine ⟨by simpa [runSteps] using hnd, ?_⟩
    intro x hx
    left
    simpa [runSteps] using hx
  | cons st rest ih =>
    intro p used hwf hsub hnd
    cases st with
    | allocPending rid c =>
      simp only [WFSteps] at hwf
      obtain ⟨hfresh, hcnew, hwf2⟩ := hwf
      have hset : mapSet rid c p = p ++ [(rid, c)] := mapSet_of_get_none rid c p hfresh
      have hsnds : (mapSet rid c p).map Prod.snd = p.map Prod.snd ++ [c] := by
        rw [hset]; simp
      have hsub2 : ∀ x, x ∈ (mapSet rid c p).map Prod.snd → x ∈ c :: used := by
        intro x hx
        rw [hsnds] at hx
        rcases List.mem_append.mp hx with hx | hx
        · exact List.mem_cons_of_mem _ (hsub x hx)
        · simp only [List.mem_singleton] at hx
          subst hx
          exact List.mem_cons_self _ _
      have hnd2 : ((mapSet rid c p).map Prod.snd).Nodup := by
        rw [hsnds]
        refine List.Nodup.append hnd (List.nodup_singleton c) ?_
        intro a ha hb
        simp only [List.mem_singleton] at hb
        subst hb
        exact hcnew (hsub a ha)
      have hres := ih (mapSet rid c p) (c :: used) hwf2 hsub2 hnd2
      simp only [runSteps, stepExec, List.nil_append]
      refine ⟨hres.1, ?_⟩
      intro x hx
      rcases hres.2 x hx with hx2 | hx2
      · rw [hsnds] at hx2
        rcases List.mem_append.mp hx2 with hx3 | hx3
        · exact Or.inl hx3
        · simp only [List.mem_singleton] at hx3
          subst hx3
          exact Or.inr (by simp [allocConts])
      · exact Or.inr (by simp [allocConts, hx2])
    | recvResponse m =>
      simp only [WFSteps] at hwf
      cases hm : mapGet m.requestId p with
      | none =>
        have happ : applyResponse p m = (p, []) := by simp [applyResponse, hm]
        rw [happ] at hwf
        have hres := ih p used hwf hsub hnd
        simp only [runSteps, stepExec, happ, List.nil_append]
        refine ⟨hres.1, ?_⟩
        intro x hx
        rcases hres.2 x hx with hx2 | hx2
        · exact Or.inl hx2
        · exact Or.inr (by simpa [allocConts] using hx2)
      | some c =>
        have hev := applyResponse_events_conts p m c hm
        have hperm : p.Perm ((m.requestId, c) :: mapDelete m.requestId p) :=
          perm_cons_mapDelete _ _ _ hm
        have hpermsnd :
            (p.map Prod.snd).Perm (c :: (mapDelete m.requestId p).map Prod.snd) := by
          simpa using hperm.map Prod.snd
        have hnd1 : (c :: (mapDelete m.requestId p).map Prod.snd).Nodup :=
          (List.Perm.nodup_iff hpermsnd).mp hnd
        have hcnotin : c ∉ (mapDelete m.requestId p).map Prod.snd :=
          (List.nodup_cons.mp hnd1).1
        have hnd2 : ((mapDelete m.requestId p).map Prod.snd).Nodup :=
          (List.nodup_cons.mp hnd1).2
        have hsub2 : ∀ x, x ∈ (mapDelete m.requestId p).map Prod.snd → x ∈ used := by
          intro x hx
          exact hsub x (hpermsnd.mem_iff.mpr (List.mem_cons_of_mem _ hx))
        have hcused : c ∈ used := hsub c (mapGet_some_mem_snd _ _ _ hm)
        rw [hev.2] at hwf
        have hres := ih (mapDelete m.requestId p) used hwf hsub2 hnd2
        have hdisj : c ∉ allocConts rest := by
          intro hc
          exact allocConts_disjoint_used rest _ _ hwf c hc hcused
        simp only [runSteps, stepExec]
        rw [List.map_append, hev.1, hev.2]
        refine ⟨?_, ?_⟩
        · rw [List.singleton_append, List.cons_append, List.nodup_cons]
          refine ⟨?_, hres.1⟩
          intro hcmem
          rcases hres.2 c hcmem with h2 | h2
          · exact hcnotin h2
          · exact hdisj h2
        · intro x hx
          rw [List.singleton_append, List.cons_append, List.mem_cons] at hx
          rcases hx with hx | hx
          · subst hx
            exact Or.inl (mapGet_some_mem_snd _ _ _ hm)
          · rcases hres.2 x hx with h2 | h2
            · exact Or.inl (hpermsnd.mem_iff.mpr (List.mem_cons_of_mem _ h2))
            · exact Or.inr (by simpa [allocConts] using h2)

theorem actorOn_effects (s : SessionState) (A c : String) (hid : Nat) (tys : List String)
    (hauth : s.authenticated = false) :
    (actorOn s A c hid tys).2 = [] ∧
    (actorOn s A c hid tys).1.authenticated = false ∧
    (actorOn s A c hid tys).1.actorName = s.actorName ∧
    mapGet A (actorOn s A c hid tys).1.actorCommandHandlers =
      some (mapSet c hid ((mapGet A s.actorCommandHandlers).getD [])) ∧
    mapGet A (actorOn s A c hid tys).1.actorCommandSignatures =
      some (mapSet c tys ((mapGet A s.actorCommandSignatures).getD [])) := by
  simp [actorOn, registerActorCommandHandler, hauth, mapGet_mapSet_same]

theorem applyRegs_effects (A : String) (regs : List (String × Nat × List String)) :
    ∀ s : SessionState, s.authenticated = false →
      (applyRegs s A regs).2 = [] ∧
      (applyRegs s A regs).1.authenticated = false ∧
      (applyRegs s A regs).1.actorName = s.actorName ∧
      ((mapGet A (applyRegs s A regs).1.actorCommandHandlers).getD []) =
        regs.foldl (fun m r => mapSet r.1 r.2.1 m)
          ((mapGet A s.actorCommandHandlers).getD []) ∧
      ((mapGet A (applyRegs s A regs).1.actorCommandHandlers).isSome =
        ((mapGet A s.actorCommandHandlers).isSome || !regs.isEmpty)) ∧
      ((mapGet A (applyRegs s A regs).1.actorCommandSignatures).getD []) =
        regs.foldl (fun m r => mapSet r.1 r.2.2 m)
          ((mapGet A s.actorCommandSignatures).getD []) ∧
      ((mapGet A (applyRegs s A regs).1.actorCommandSignatures).isSome =
        ((mapGet A s.actorCommandSignatures).isSome || !regs.isEmpty)) := by
  induction regs with
  | nil =>
    intro s hauth
    simp [applyRegs, hauth]
  | cons r rest ih =>
    intro s hauth
    obtain ⟨he, ha, hn, hh, hs⟩ := actorOn_effects s A r.1 r.2.1 r.2.2 hauth
    obtain ⟨ihe, iha, ihn, ihh, ihhs, ihs, ihss⟩ :=
      ih (actorOn s A r.1 r.2.1 r.2.2).1 ha
    refine ⟨?_, ?_, ?_, ?_, ?_, ?_, ?_⟩
    · simp only [applyRegs, he, ihe, List.append_nil]
    · simpa [applyRegs] using iha
    · rw [show (applyRegs s A (r :: rest)).1 =
        (applyRegs (actorOn s A r.1 r.2.1 r.2.2).1 A rest).1 from rfl, ihn, hn]
    · rw [show (applyRegs s A (r :: rest)).1 =
        (applyRegs (actorOn s A r.1 r.2.1 r.2.2).1 A rest).1 from rfl, ihh, hh]
      simp [List.foldl_cons]
    · rw [show (applyRegs s A (r :: rest)).1 =
        (applyRegs (actorOn s A r.1 r.2.1 r.2.2).1 A rest).1 from rfl, ihhs, hh]
      simp
    · rw [show (applyRegs s A (r :: rest)).1 =
        (applyRegs (actorOn s A r.1 r.2.1 r.2.2).1 A rest).1 from rfl, ihs, hs]
      simp [List.foldl_cons]
    · rw [show (applyRegs s A (r :: rest)).1 =
        (applyRegs (actorOn s A r.1 r.2.1 r.2.2).1 A rest).1 from rfl, ihss, hs]
      simp

theorem foldl_mapSet_keys_mem {β δ : Type} (g : δ → β) (l : List (String × δ)) :
    ∀ (m0 : List (String × β)) (x : String),
      (x ∈ (l.foldl (fun m r => mapSet r.1 (g r.2) m) m0).map Prod.fst) ↔
        (x ∈ m0.map Prod.fst ∨ x ∈ l.map Prod.fst) := by
  induction l with
  | nil => intro m0 x; simp
  | cons r rest ih =>
    intro m0 x
    simp only [List.foldl_cons, List.map_cons, List.mem_cons]
    rw [ih, mem_keys_mapSet]
    tauto

theorem foldl_mapSet_keys_nodup {β δ : Type} (g : δ → β) (l : List (String × δ)) :
    ∀ (m0 : List (String × β)), (m0.map Prod.fst).Nodup →
      ((l.foldl (fun m r => mapSet r.1 (g r.2) m) m0).map Prod.fst).Nodup := by
  induction l with
  | nil => intro m0 h; simpa using h
  | cons r rest ih =>
    intro m0 h
    simp only [List.foldl_cons]
    exact ih _ (mapSet_keys_nodup _ _ _ h)

theorem mapHas_iff_mem_keys {β : Type} (c : String) (m : List (String × β)) :
    mapHas c m = true ↔ c ∈ m.map Prod.fst := by
  constructor
  · intro h
    by_contra hnm
    rw [mapHas, mapGet_eq_none_of_not_mem c m hnm] at h
    simp at h
  · intro hmem
    cases hg : mapGet c m with
    | none => exact absurd hmem (mapGet_none_not_mem c m hg)
    | some v => simp [mapHas, hg]

theorem mem_keys_filter_mapHas {β γ : Type} (m : List (String × β))
    (hs : List (String × γ)) (c : String) :
    (c ∈ (m.filter (fun kv => mapHas kv.1 hs)).map Prod.fst) ↔
      (c ∈ m.map Prod.fst ∧ mapHas c hs = true) := by
  simp only [List.mem_map, List.mem_filter]
  constructor
  · rintro ⟨kv, ⟨hmem, hhas⟩, hfst⟩
    subst hfst
    exact ⟨⟨kv, hmem, rfl⟩, hhas⟩
  · rintro ⟨⟨kv, hmem, hfst⟩, hhas⟩
    subst hfst
    exact ⟨kv, ⟨hmem, hhas⟩, rfl⟩

theorem registerPendingCommands_names (s : SessionState) (A : String)
    (hs0 : List (String × Nat)) (sigs0 : List (String × List String))
    (hh : mapGet A s.actorCommandHandlers = some hs0)
    (hg : mapGet A s.actorCommandSignatures = some sigs0) :
    (registerPendingCommands s A).map RegisterCommandMessage.commandName =
      (sigs0.filter (fun kv => mapHas kv.1 hs0)).map Prod.fst := by
  simp only [registerPendingCommands, hh, hg, List.map_map]
  rfl

theorem registerPendingCommands_no_handlers (s : SessionState) (A : String)
    (hh : mapGet A s.actorCommandHandlers = none) :
    registerPendingCommands s A = [] := by
  simp [registerPendingCommands, hh]

theorem handshakeSuccessUpdate_handlers (s : SessionState)
    (resp : HandshakeResponseMessage) :
    (handshakeSuccessUpdate s resp).actorCommandHandlers = s.actorCommandHandlers := by
  unfold handshakeSuccessUpdate
  by_cases hsu : resp.success
  · simp only [if_pos hsu]
    cases resp.actorInfo with
    | none => cases s.actorName <;> rfl
    | some info =>
      obtain ⟨md, rc⟩ := info
      cases s.actorName <;> rfl
  · simp [if_neg hsu]

theorem handshakeSuccessUpdate_signatures (s : SessionState)
    (resp : HandshakeResponseMessage) (A : String)
    (han : s.actorName = some A) (hsu : resp.success = true) :
    mapGet A (handshakeSuccessUpdate s resp).actorCommandSignatures =
      match resp.actorInfo with
      | none => mapGet A s.actorCommandSignatures
      | some info =>
          some (info.2.foldl (fun acc c => mapSet c.1 c.2 acc)
            ((mapGet A s.actorCommandSignatures).getD [])) := by
  unfold handshakeSuccessUpdate
  rw [if_pos hsu]
  cases hinfo : resp.actorInfo with
  | none => simp [han]
  | some info =>
    obtain ⟨md, rc⟩ := info
    simp only [han]
    exact mapGet_mapSet_same A _ _

/-- C2: for an inbound COMMAND frame whose (targetActorName, commandName)
names a registered handler, `handleCommand` produces exactly one RESPONSE
frame — `{targetChannel: sourceChannel, requestId, result}` when the
handler returns a value and `{targetChannel: sourceChannel, requestId,
error: message}` when it throws or rejects — and being a total function it
never lets the error propagate; for a frame naming an unregistered actor
or command it produces no RESPONSE frame at all. -/
theorem c2_commandRouting (handlers : List (String × List (String × Nat)))
    (henv : Nat → List Value → Except String Value) (m : CommandMessage) :
    (mapGet m.targetActorName handlers = none → handleCommand handlers henv m = none) ∧
    (∀ ah, mapGet m.targetActorName handlers = some ah →
      (mapGet m.commandName ah = none → handleCommand handlers henv m = none) ∧
      (∀ hid, mapGet m.commandName ah = some hid →
        (∀ v, henv hid m.args = .ok v →
          handleCommand handlers henv m =
            some { targetChannel := jsOr m.sourceChannel "", requestId := m.requestId,
                   result := some v, error := none }) ∧
        (∀ e, henv hid m.args = .error e →
          handleCommand handlers henv m =
            some { targetChannel := jsOr m.sourceChannel "", requestId := m.requestId,
                   result := none, error := some e }))) := by
  refine ⟨?_, ?_⟩
  · intro h
    simp [handleCommand, h]
  · intro ah hah
    refine ⟨?_, ?_⟩
    · intro h
      simp [handleCommand, hah, h]
    · intro hid hhid
      refine ⟨?_, ?_⟩
      · intro v hv
        simp [handleCommand, hah, hhid, hv]
      · intro e he
        simp [handleCommand, hah, hhid, he]

/-- Witness for C2 at a concrete handler table, command frame and handler
outcome, covering the success response, the failure response and the
silent miss. -/
theorem c2_commandRouting_witness :
    handleCommand [("robot", [("wave", 0)])] (fun _ _ => Except.ok (Value.str "done"))
      { targetActorName := "robot", commandName := "wave", args := [], requestId := "r1",
        sourceChannel := some "ch" } =
      some { targetChannel := "ch", requestId := "r1",
             result := some (Value.str "done"), error := none } ∧
    handleCommand [("robot", [("wave", 0)])] (fun _ _ => Except.error "boom")
      { targetActorName := "robot", commandName := "wave", args := [], requestId := "r1",
        sourceChannel := some "ch" } =
      some { targetChannel := "ch", requestId := "r1",
             result := none, error := some "boom" } ∧
    handleCommand [("robot", [("wave", 0)])] (fun _ _ => Except.ok (Value.str "done"))
      { targetActorName := "ghost", commandName := "wave", args := [], requestId := "r1",
        sourceChannel := some "ch" } = none := by
  refine ⟨?_, ?_, ?_⟩
  · exact (((c2_commandRouting [("robot", [("wave", 0)])]
      (fun _ _ => Except.ok (Value.str "done"))
      { targetActorName := "robot", commandName := "wave", args := [], requestId := "r1",
        sourceChannel := some "ch" }).2 [("wave", 0)] rfl).2 0 rfl).1 (Value.str "done") rfl
  · exact (((c2_commandRouting [("robot", [("wave", 0)])]
      (fun _ _ => Except.error "boom")
      { targetActorName := "robot", commandName := "wave", args := [], requestId := "r1",
        sourceChannel := some "ch" }).2 [("wave", 0)] rfl).2 0 rfl).2 "boom" rfl
  · exact (c2_commandRouting [("robot", [("wave", 0)])]
      (fun _ _ => Except.ok (Value.str "done"))
      { targetActorName := "ghost", commandName := "wave", args := [], requestId := "r1",
        sourceChannel := some "ch" }).1 rfl

/-- C3: a transport close event arriving while the session is connected
(post-Ready) rejects exactly the K outstanding requests, one ConnectionLost
rejection per pending entry, leaves the pending table empty, clears
`connected` and `authenticated` and nulls `connectionPromise` so that a
later `connect` call can reconnect. -/
theorem c3_connectionLoss (s : SessionState) (hconn : s.connected = true) :
    (onClose s).2 = s.pendingRequests.map (fun e =>
        Event.rejected e.2
          "Connection Lost: The connection to the Vitrus server was lost unexpectedly.") ∧
    (onClose s).2.length = s.pendingRequests.length ∧
    (onClose s).1.pendingRequests = [] ∧
    (onClose s).1.connected = false ∧
    (onClose s).1.authenticated = false ∧
    (onClose s).1.connectionPromise = none := by
  simp [onClose, hconn]

/-- Witness for C3 on a connected session holding two pending requests. -/
theorem c3_connectionLoss_witness :
    sampleState.connected = true ∧
    (onClose sampleState).2.length = 2 ∧
    (onClose sampleState).1.pendingRequests = [] ∧
    (onClose sampleState).1.connectionPromise = none := by
  have h := c3_connectionLoss sampleState rfl
  exact ⟨rfl, h.2.1.trans (by rfl), h.2.2.1, h.2.2.2.2.2⟩

/-- C6: `connect` is idempotent while a connection promise exists — the
same promise is returned, the session state is untouched and no second
transport is opened (the returned flag records whether `new WS` ran). -/
theorem c6_connectIdempotent (s : SessionState) (p : Nat)
    (h : s.connectionPromise = some p) (an : Option String) (md : Option Value)
    (fresh : Nat) :
    connect s an md fresh = (s, p, false) := by
  simp [connect, h]

/-- Witness for C6 on a session with an in-flight connection promise. -/
theorem c6_connectIdempotent_witness :
    ({ sampleState with connectionPromise := some 7 } : SessionState).connectionPromise =
      some 7 ∧
    connect { sampleState with connectionPromise := some 7 } (some "x") none 99 =
      ({ sampleState with connectionPromise := some 7 }, 7, false) :=
  ⟨rfl, c6_connectIdempotent { sampleState with connectionPromise := some 7 } 7 rfl
    (some "x") none 99⟩

/-- C7: a failed handshake response carrying error_code `invalid_api_key`
is mapped to the specific invalid/expired-key message, not to the generic
`Authentication failed` fallback, and the in-flight connect is rejected
with exactly that message. -/
theorem c7_invalidApiKeyMessage (resp : HandshakeResponseMessage)
    (_hsu : resp.success = false) (hc : resp.error_code = some "invalid_api_key") :
    authFailureMessage resp =
      "Authentication Failed: The provided API Key is invalid or expired." ∧
    authFailureMessage resp ≠ "Authentication failed" := by
  have h1 : authFailureMessage resp =
      "Authentication Failed: The provided API Key is invalid or expired." := by
    simp [authFailureMessage, hc]
  refine ⟨h1, ?_⟩
  rw [h1]
  decide

/-- Witness for C7 on a concrete failed handshake response. -/
theorem c7_invalidApiKeyMessage_witness :
    ({ success := false, clientId := "", error_code := some "invalid_api_key",
       redisChannel := none, message := none, actorInfo := none } :
        HandshakeResponseMessage).success = false ∧
    authFailureMessage
      { success := false, clientId := "", error_code := some "invalid_api_key",
        redisChannel := none, message := none, actorInfo := none } =
      "Authentication Failed: The provided API Key is invalid or expired." :=
  ⟨rfl, (c7_invalidApiKeyMessage
    { success := false, clientId := "", error_code := some "invalid_api_key",
      redisChannel := none, message := none, actorInfo := none } rfl rfl).1⟩

/-- C9: `runCommand` on a session constructed without a world id fails
immediately with the worldId-required error; the state (in particular the
pending table) is untouched, no frame is handed to the transport, and the
outcome does not depend on the authentication oracle, the generated
request id or the send outcome — none of those steps is reached. -/
theorem c9_runCommandRequiresWorld (s : SessionState) (h : s.worldId = none)
    (an cn : String) (args : List Value)
    (authFn : SessionState → SessionState × Except String Unit)
    (rid : String) (cont : Nat) (sendResult : Except String Unit) :
    runCommand s an cn args authFn rid cont sendResult =
      (s, .noWorldError "Vitrus SDK requires a worldId to run commands on actors.", none) := by
  simp [runCommand, h]

/-- Witness for C9 on a concrete world-less session. -/
theorem c9_runCommandRequiresWorld_witness :
    ({ sampleState with worldId := none } : SessionState).worldId = none ∧
    runCommand { sampleState with worldId := none } "robot" "wave" []
        (fun s => (s, Except.ok ())) "r9" 9 (Except.ok ()) =
      ({ sampleState with worldId := none },
       .noWorldError "Vitrus SDK requires a worldId to run commands on actors.", none) :=
  ⟨rfl, c9_runCommandRequiresWorld { sampleState with worldId := none } rfl "robot" "wave"
    [] (fun s => (s, Except.ok ())) "r9" 9 (Except.ok ())⟩

/-- C10: a WORKFLOW_LIST frame whose requestId matches a pending
`list_workflows` call (whose registration of the pending continuation is
part of the statement) and whose error field is absent resolves the call
with the frame's workflows array — and with the empty array when the
workflows field is absent too, never with an undefined value. -/
theorem c10_workflowListResolution (pending : List (String × Nat))
    (m : WorkflowListMessage) (c : Nat)
    (hp : mapGet m.requestId pending = some c) (he : m.error = none) :
    (applyWorkflowList pending m).2 =
      [Event.resolved c (some (Value.arr (m.workflows.getD [])))] ∧
    (applyWorkflowList pending m).1 = mapDelete m.requestId pending ∧
    (m.workflows = none →
      (applyWorkflowList pending m).2 = [Event.resolved c (some (Value.arr []))]) ∧
    (∀ (s : SessionState) (authFn : SessionState → SessionState × Except String Unit)
        (rid : String) (cont : Nat), s.authenticated = true →
      mapGet rid
        ((listWorkflowsCall s authFn rid cont (Except.ok ())).1.pendingRequests) =
        some cont) := by
  refine ⟨?_, ?_, ?_, ?_⟩
  · simp [applyWorkflowList, hp, he, strTruthy]
  · simp [applyWorkflowList, hp, he, strTruthy]
  · intro hw
    simp [applyWorkflowList, hp, he, hw, strTruthy]
  · intro s authFn rid cont hauth
    simp [listWorkflowsCall, hauth, mapGet_mapSet_same]

/-- Witness for C10 at a concrete pending table and WORKFLOW_LIST frame
with no workflows field. -/
theorem c10_workflowListResolution_witness :
    mapGet "a" [("a", 0), ("b", 1)] = some 0 ∧
    (applyWorkflowList [("a", 0), ("b", 1)]
        { requestId := "a", workflows := none, error := none }).2 =
      [Event.resolved 0 (some (Value.arr []))] := by
  have h := c10_workflowListResolution [("a", 0), ("b", 1)]
    { requestId := "a", workflows := none, error := none } 0 rfl rfl
  exact ⟨rfl, h.2.2.1 rfl⟩

/-- C4 counterexample: at a concrete pending table and matching frames,
both the RESPONSE and the WORKFLOW_RESULT branch invoke the stored
continuation FIRST (index 0 of the primitive-action trace) and delete the
pending entry only afterwards (index 1) — the claim that the entry is
removed before the continuation is invoked is false of the code. -/
theorem c4_removeBeforeInvoke_counterexample :
    responseBranchActions [("r1", 5)]
        { targetChannel := "", requestId := "r1",
          result := some (Value.str "ok"), error := none } =
      [.invoke 5, .deleteEntry "r1"] ∧
    workflowResultBranchActions [("r1", 5)]
        { requestId := "r1", result := some (Value.str "ok"), error := none } =
      [.invoke 5, .deleteEntry "r1"] ∧
    List.indexOf (CorrelatorAction.invoke 5)
        (responseBranchActions [("r1", 5)]
          { targetChannel := "", requestId := "r1",
            result := some (Value.str "ok"), error := none }) = 0 ∧
    List.indexOf (CorrelatorAction.deleteEntry "r1")
        (responseBranchActions [("r1", 5)]
          { targetChannel := "", requestId := "r1",
            result := some (Value.str "ok"), error := none }) = 1 := by
  refine ⟨rfl, rfl, ?_, ?_⟩ <;> decide

/-- C4 amended: the RESPONSE and WORKFLOW_RESULT branches are no-ops when
the id is not pending (already resolved, timed out, or never registered);
when the id is pending the stored continuation is invoked exactly once and
the entry is removed within the same synchronous handling step — the
removal happening immediately AFTER the resolver invocation rather than
before it (no user code can run in between, the resolver only schedules
the continuation). -/
theorem c4_correlatorSemantics (pending : List (String × Nat)) (rm : ResponseMessage)
    (wm : WorkflowResultMessage) :
    (mapGet rm.requestId pending = none →
      applyResponse pending rm = (pending, []) ∧
      responseBranchActions pending rm = []) ∧
    (∀ c, mapGet rm.requestId pending = some c →
      responseBranchActions pending rm = [.invoke c, .deleteEntry rm.requestId] ∧
      (applyResponse pending rm).1 = mapDelete rm.requestId pending ∧
      (applyResponse pending rm).2.map contOfD = [c]) ∧
    (mapGet wm.requestId pending = none →
      applyWorkflowResult pending wm = (pending, []) ∧
      workflowResultBranchActions pending wm = []) ∧
    (∀ c, mapGet wm.requestId pending = some c →
      workflowResultBranchActions pending wm = [.invoke c, .deleteEntry wm.requestId] ∧
      (applyWorkflowResult pending wm).1 = mapDelete wm.requestId pending ∧
      (applyWorkflowResult pending wm).2.map contOfD = [c]) := by
  refine ⟨?_, ?_, ?_, ?_⟩
  · intro h
    simp [applyResponse, responseBranchActions, h]
  · intro c h
    refine ⟨by simp [responseBranchActions, h], by simp [applyResponse, h], ?_⟩
    simp only [applyResponse, h]
    by_cases he : strTruthy rm.error <;> simp [he, contOfD]
  · intro h
    simp [applyWorkflowResult, workflowResultBranchActions, h]
  · intro c h
    refine ⟨by simp [workflowResultBranchActions, h], by simp [applyWorkflowResult, h], ?_⟩
    simp only [applyWorkflowResult, h]
    by_cases he : strTruthy wm.error <;> simp [he, contOfD]

/-- Witness for the amended C4 at a concrete table, covering the no-op
miss and the exactly-once hit. -/
theorem c4_correlatorSemantics_witness :
    mapGet "zz" [("r1", 5)] = none ∧
    applyResponse [("r1", 5)]
        { targetChannel := "", requestId := "zz", result := none, error := none } =
      ([("r1", 5)], []) ∧
    mapGet "r1" [("r1", 5)] = some 5 ∧
    (applyWorkflowResult [("r1", 5)]
        { requestId := "r1", result := none, error := some "bad" }).2.map contOfD =
      [5] := by
  have h1 := c4_correlatorSemantics [("r1", 5)]
    { targetChannel := "", requestId := "zz", result := none, error := none }
    { requestId := "r1", result := none, error := some "bad" }
  exact ⟨rfl, (h1.1 rfl).1, rfl, (h1.2.2.2 5 rfl).2.2⟩

/-- C8: when the outbound send of a `runCommand`, `workflow` or
`list_workflows` call fails, exactly that call is rejected with the send
error, its freshly inserted correlation entry is removed, and every other
pending entry is left unchanged. -/
theorem c8_sendFailureIsolated (s : SessionState) (w : String)
    (hw : s.worldId = some w) (hauth : s.authenticated = true)
    (hnd : (s.pendingRequests.map Prod.fst).Nodup)
    (an cn : String) (args : List Value) (wn : String) (wargs : Value)
    (authFn : SessionState → SessionState × Except String Unit)
    (rid : String) (cont : Nat) (e : String) :
    ((runCommand s an cn args authFn rid cont (Except.error e)).2.1 = .sendFailed e ∧
      mapGet rid (runCommand s an cn args authFn rid cont
        (Except.error e)).1.pendingRequests = none ∧
      (∀ id2, id2 ≠ rid →
        mapGet id2 (runCommand s an cn args authFn rid cont
          (Except.error e)).1.pendingRequests = mapGet id2 s.pendingRequests)) ∧
    ((workflowCall s wn wargs authFn rid cont (Except.error e)).2.1 = .sendFailed e ∧
      mapGet rid (workflowCall s wn wargs authFn rid cont
        (Except.error e)).1.pendingRequests = none ∧
      (∀ id2, id2 ≠ rid →
        mapGet id2 (workflowCall s wn wargs authFn rid cont
          (Except.error e)).1.pendingRequests = mapGet id2 s.pendingRequests)) ∧
    ((listWorkflowsCall s authFn rid cont (Except.error e)).2.1 = .sendFailed e ∧
      mapGet rid (listWorkflowsCall s authFn rid cont
        (Except.error e)).1.pendingRequests = none ∧
      (∀ id2, id2 ≠ rid →
        mapGet id2 (listWorkflowsCall s authFn rid cont
          (Except.error e)).1.pendingRequests = mapGet id2 s.pendingRequests)) := by
  have hrc : (runCommand s an cn args authFn rid cont (Except.error e)).1.pendingRequests =
      mapDelete rid (mapSet rid cont s.pendingRequests) := by
    simp [runCommand, hw, hauth]
  have hrco : (runCommand s an cn args authFn rid cont (Except.error e)).2.1 =
      .sendFailed e := by
    simp [runCommand, hw, hauth]
  have hwc : (workflowCall s wn wargs authFn rid cont (Except.error e)).1.pendingRequests =
      mapDelete rid (mapSet rid cont s.pendingRequests) := by
    simp [workflowCall, hauth]
  have hwco : (workflowCall s wn wargs authFn rid cont (Except.error e)).2.1 =
      .sendFailed e := by
    simp [workflowCall, hauth]
  have hlc : (listWorkflowsCall s authFn rid cont (Except.error e)).1.pendingRequests =
      mapDelete rid (mapSet rid cont s.pendingRequests) := by
    simp [listWorkflowsCall, hauth]
  have hlco : (listWorkflowsCall s authFn rid cont (Except.error e)).2.1 =
      .sendFailed e := by
    simp [listWorkflowsCall, hauth]
  have hgone : mapGet rid (mapDelete rid (mapSet rid cont s.pendingRequests)) = none :=
    mapGet_mapDelete_same rid _ (mapSet_keys_nodup rid cont s.pendingRequests hnd)
  have hothers : ∀ id2, id2 ≠ rid →
      mapGet id2 (mapDelete rid (mapSet rid cont s.pendingRequests)) =
        mapGet id2 s.pendingRequests := by
    intro id2 hne
    rw [mapGet_mapDelete_other rid id2 _ hne, mapGet_mapSet_other rid id2 cont _ hne]
  refine ⟨⟨hrco, ?_, ?_⟩, ⟨hwco, ?_, ?_⟩, ⟨hlco, ?_, ?_⟩⟩
  · rw [hrc]; exact hgone
  · intro id2 hne; rw [hrc]; exact hothers id2 hne
  · rw [hwc]; exact hgone
  · intro id2 hne; rw [hwc]; exact hothers id2 hne
  · rw [hlc]; exact hgone
  · intro id2 hne; rw [hlc]; exact hothers id2 hne

/-- Witness for C8 on a connected session with two unrelated pending
requests and a failing send. -/
theorem c8_sendFailureIsolated_witness :
    sampleState.worldId = some "w" ∧ sampleState.authenticated = true ∧
    (sampleState.pendingRequests.map Prod.fst).Nodup ∧
    (runCommand sampleState "robot" "wave" [] (fun s => (s, Except.ok ())) "r9" 9
        (Except.error "WebSocket is not connected")).2.1 =
      .sendFailed "WebSocket is not connected" ∧
    mapGet "r9" (runCommand sampleState "robot" "wave" [] (fun s => (s, Except.ok ()))
        "r9" 9 (Except.error "WebSocket is not connected")).1.pendingRequests = none ∧
    mapGet "a" (runCommand sampleState "robot" "wave" [] (fun s => (s, Except.ok ()))
        "r9" 9 (Except.error "WebSocket is not connected")).1.pendingRequests =
      mapGet "a" sampleState.pendingRequests := by
  have h := c8_sendFailureIsolated sampleState "w" rfl rfl (by decide) "robot" "wave" []
    "wf" Value.null (fun s => (s, Except.ok ())) "r9" 9 "WebSocket is not connected"
  exact ⟨rfl, rfl, by decide, h.1.1, h.1.2.1, h.1.2.2 "a" (by decide)⟩

/-- C1 counterexample: `generateRequestId` is a pure draw from the random
source and never consults the pending table, so the drawn id can equal a
currently pending id.  In this concrete trace two calls draw the same id
"a" while the first is still outstanding: the second `Map.set` overwrites
the first continuation (token 0), the matching RESPONSE frame then
resolves only continuation 1, and continuation 0 is neither pending at the
end nor ever invoked — its request never resolves, falsifying both the
uniqueness of allocated ids among pending ids and the exactly-once
resolution of every pending request. -/
theorem c1_collision_counterexample :
    generateRequestId "a" = generateRequestId "a" ∧
    mapSet "a" 1 (mapSet "a" 0 []) = [("a", 1)] ∧
    (runSteps [] [SessionStep.allocPending "a" 0, SessionStep.allocPending "a" 1,
        SessionStep.recvResponse
          { targetChannel := "", requestId := "a",
            result := some (Value.str "x"), error := none }]).1 = [] ∧
    ((runSteps [] [SessionStep.allocPending "a" 0, SessionStep.allocPending "a" 1,
        SessionStep.recvResponse
          { targetChannel := "", requestId := "a",
            result := some (Value.str "x"), error := none }]).2.map contOfD) = [1] := by
  refine ⟨rfl, by decide, rfl, rfl⟩

/-- C1 amended: the code does not enforce id uniqueness — request ids are
independent random draws.  Whenever the drawn ids happen to be fresh (no
draw collides with a currently pending id) and each call's promise
continuation is fresh, then over an arbitrary interleaving of allocations
and response arrivals no continuation is ever invoked more than once, and
a response frame arriving for a pending id completes exactly that entry's
continuation with the frame's own payload (rejecting on a truthy error,
resolving with the result otherwise) while removing the entry. -/
theorem c1_requestLifecycle (steps : List SessionStep) (hwf : WFSteps [] [] steps) :
    (∀ c : Nat, ((runSteps [] steps).2.map contOfD).count c ≤ 1) ∧
    (∀ (p : List (String × Nat)) (m : ResponseMessage) (c : Nat),
      mapGet m.requestId p = some c →
      (applyResponse p m).1 = mapDelete m.requestId p ∧
      (applyResponse p m).2 =
        (if strTruthy m.error then [Event.rejected c (jsOr m.error "")]
         else [Event.resolved c m.result])) := by
  constructor
  · intro c
    have h := runSteps_invariant steps [] [] hwf (by simp) (by simp)
    have hnd : ((runSteps [] steps).2.map contOfD).Nodup :=
      List.Nodup.of_append_left h.1
    exact List.nodup_iff_count_le_one.mp hnd c
  · intro p m c hp
    constructor
    · simp [applyResponse, hp]
    · simp [applyResponse, hp]

/-- Witness for the amended C1 on a concrete well-formed trace of one
allocation followed by its matching response. -/
theorem c1_requestLifecycle_witness :
    WFSteps [] [] c1WitnessSteps ∧
    ((runSteps [] c1WitnessSteps).2.map contOfD).count 0 ≤ 1 ∧
    ((runSteps [] c1WitnessSteps).2.map contOfD) = [0] := by
  have hwf : WFSteps [] [] c1WitnessSteps := ⟨rfl, by simp, trivial⟩
  exact ⟨hwf, (c1_requestLifecycle c1WitnessSteps hwf).1 0, rfl⟩

/-- The replay after authentication announces exactly one command per name
with a live handler: given the two inner maps for the actor, with
signature keys free of duplicates, handler keys exactly `names`, and every
name present among the signature keys, the emitted `REGISTER_COMMAND`
frames carry each name exactly once (no duplicates, no omissions). -/
theorem replay_names_general (s2 : SessionState) (A : String)
    (hval : List (String × Nat)) (sigs2 : List (String × List String))
    (hgh : mapGet A s2.actorCommandHandlers = some hval)
    (hgs : mapGet A s2.actorCommandSignatures = some sigs2)
    (hndS : (sigs2.map Prod.fst).Nodup)
    (names : List String)
    (hsup : ∀ x, x ∈ names → x ∈ sigs2.map Prod.fst)
    (hkh : ∀ x, x ∈ hval.map Prod.fst ↔ x ∈ names) :
    ((registerPendingCommands s2 A).map RegisterCommandMessage.commandName).Nodup ∧
    (∀ c, c ∈ (registerPendingCommands s2 A).map RegisterCommandMessage.commandName ↔
      c ∈ names) := by
  have hnames := registerPendingCommands_names s2 A hval sigs2 hgh hgs
  rw [hnames]
  constructor
  · exact List.Nodup.sublist
      (List.Sublist.map Prod.fst (List.filter_sublist sigs2)) hndS
  · intro c
    rw [mem_keys_filter_mapHas]
    constructor
    · rintro ⟨_, hhas⟩
      exact (hkh c).mp ((mapHas_iff_mem_keys c hval).mp hhas)
    · intro hc
      exact ⟨hsup c hc, (mapHas_iff_mem_keys c hval).mpr ((hkh c).mpr hc)⟩

/-- C5: commands registered for actor A via `Actor.on` while the session is
not authenticated emit no REGISTER_COMMAND frames at registration time
(the frames list collected over the registrations is empty); after the
desired identity is set to A and a successful HANDSHAKE_RESPONSE is
processed (restoring any server-known signatures), the replay
`registerPendingCommands A` announces exactly one REGISTER_COMMAND per
registered command whose handler still exists — no duplicates and no
omissions (server-restored signature entries without local handlers are
skipped). -/
theorem c5_registrationReplay (s0 : SessionState) (A : String)
    (regs : List (String × Nat × List String)) (resp : HandshakeResponseMessage)
    (hauth : s0.authenticated = false)
    (hh : mapGet A s0.actorCommandHandlers = none)
    (hsg : mapGet A s0.actorCommandSignatures = none)
    (hsucc : resp.success = true) :
    (applyRegs s0 A regs).2 = [] ∧
    ((registerPendingCommands
        (handshakeSuccessUpdate
          { (applyRegs s0 A regs).1 with actorName := some A } resp)
        A).map RegisterCommandMessage.commandName).Nodup ∧
    (∀ c, c ∈ (registerPendingCommands
        (handshakeSuccessUpdate
          { (applyRegs s0 A regs).1 with actorName := some A } resp)
        A).map RegisterCommandMessage.commandName ↔ c ∈ regs.map Prod.fst) := by
  obtain ⟨hre, hra, hrn, hfh, hfhs, hfs, hfss⟩ := applyRegs_effects A regs s0 hauth
  rw [hh] at hfh hfhs
  rw [hsg] at hfs hfss
  simp only [Option.getD_none, Option.isSome_none, Bool.false_or] at hfh hfhs hfs hfss
  refine ⟨hre, ?_⟩
  cases regs with
  | nil =>
    have hgetH : mapGet A (handshakeSuccessUpdate
        { (applyRegs s0 A []).1 with actorName := some A } resp).actorCommandHandlers =
        none := by
      rw [handshakeSuccessUpdate_handlers]
      exact hh
    rw [registerPendingCommands_no_handlers _ _ hgetH]
    simp
  | cons r0 rest0 =>
    cases hx : mapGet A (applyRegs s0 A (r0 :: rest0)).1.actorCommandHandlers with
    | none =>
      rw [hx] at hfhs
      simp at hfhs
    | some hval =>
      cases hx2 : mapGet A (applyRegs s0 A (r0 :: rest0)).1.actorCommandSignatures with
      | none =>
        rw [hx2] at hfss
        simp at hfss
      | some sval =>
        rw [hx] at hfh
        simp only [Option.getD_some] at hfh
        rw [hx2] at hfs
        simp only [Option.getD_some] at hfs
        subst hfh
        subst hfs
        have hgetH : mapGet A (handshakeSuccessUpdate
            { (applyRegs s0 A (r0 :: rest0)).1 with actorName := some A }
            resp).actorCommandHandlers =
            some ((r0 :: rest0).foldl (fun m r => mapSet r.1 r.2.1 m) []) := by
          rw [handshakeSuccessUpdate_handlers]
          exact hx
        have hkeysSval : ∀ x,
            x ∈ ((r0 :: rest0).foldl (fun m r => mapSet r.1 r.2.2 m) []).map Prod.fst ↔
              x ∈ (r0 :: rest0).map Prod.fst := by
          intro x
          have K := foldl_mapSet_keys_mem (fun d : Nat × List String => d.2)
            (r0 :: rest0) [] x
          simpa using K
        have hkeysHval : ∀ x,
            x ∈ ((r0 :: rest0).foldl (fun m r => mapSet r.1 r.2.1 m) []).map Prod.fst ↔
              x ∈ (r0 :: rest0).map Prod.fst := by
          intro x
          have K := foldl_mapSet_keys_mem (fun d : Nat × List String => d.1)
            (r0 :: rest0) [] x
          simpa using K
        have hndSval :
            (((r0 :: rest0).foldl (fun m r => mapSet r.1 r.2.2 m) []).map Prod.fst).Nodup := by
          have K := foldl_mapSet_keys_nodup (fun d : Nat × List String => d.2)
            (r0 :: rest0) [] (by simp)
          simpa using K
        have hsig := handshakeSuccessUpdate_signatures
          { (applyRegs s0 A (r0 :: rest0)).1 with actorName := some A } resp A rfl hsucc
        have hgd : (mapGet A ({ (applyRegs s0 A (r0 :: rest0)).1 with
            actorName := some A } : SessionState).actorCommandSignatures) =
            some ((r0 :: rest0).foldl (fun m r => mapSet r.1 r.2.2 m) []) := hx2
        cases hinfo : resp.actorInfo with
        | none =>
          rw [hinfo] at hsig
          have hgetS : mapGet A (handshakeSuccessUpdate
              { (applyRegs s0 A (r0 :: rest0)).1 with actorName := some A }
              resp).actorCommandSignatures =
              some ((r0 :: rest0).foldl (fun m r => mapSet r.1 r.2.2 m) []) := by
            rw [hsig]
            exact hgd
          exact replay_names_general _ A _ _ hgetH hgetS hndSval _
            (fun x hx3 => (hkeysSval x).mpr hx3) hkeysHval
        | some info =>
          rw [hinfo, hgd] at hsig
          simp only [Option.getD_some] at hsig
          have hndBig : ((info.2.foldl (fun acc c => mapSet c.1 c.2 acc)
              ((r0 :: rest0).foldl (fun m r => mapSet r.1 r.2.2 m) [])).map Prod.fst).Nodup := by
            have K := foldl_mapSet_keys_nodup (fun d : List String => d) info.2
              ((r0 :: rest0).foldl (fun m r => mapSet r.1 r.2.2 m) []) hndSval
            simpa using K
          have hsupBig : ∀ x, x ∈ (r0 :: rest0).map Prod.fst →
              x ∈ (info.2.foldl (fun acc c => mapSet c.1 c.2 acc)
                ((r0 :: rest0).foldl (fun m r => mapSet r.1 r.2.2 m) [])).map Prod.fst := by
            intro x hx3
            have K := foldl_mapSet_keys_mem (fun d : List String => d) info.2
              ((r0 :: rest0).foldl (fun m r => mapSet r.1 r.2.2 m) []) x
            exact K.mpr (Or.inl ((hkeysSval x).mpr hx3))
          exact replay_names_general _ A _ _ hgetH hsig hndBig _ hsupBig hkeysHval

/-- Witness for C5: two commands registered while unauthenticated emit
nothing, and after the successful handshake the replay announces each of
them exactly once while skipping the handler-less restored command. -/
theorem c5_registrationReplay_witness :
    c5State.authenticated = false ∧
    (applyRegs c5State "A" c5Regs).2 = [] ∧
    ((registerPendingCommands
        (handshakeSuccessUpdate
          { (applyRegs c5State "A" c5Regs).1 with actorName := some "A" } c5Resp)
        "A").map RegisterCommandMessage.commandName).Nodup ∧
    "wave" ∈ (registerPendingCommands
        (handshakeSuccessUpdate
          { (applyRegs c5State "A" c5Regs).1 with actorName := some "A" } c5Resp)
        "A").map RegisterCommandMessage.commandName ∧
    "fly" ∉ (registerPendingCommands
        (handshakeSuccessUpdate
          { (applyRegs c5State "A" c5Regs).1 with actorName := some "A" } c5Resp)
        "A").map RegisterCommandMessage.commandName := by
  have h := c5_registrationReplay c5State "A" c5Regs c5Resp rfl rfl rfl rfl
  refine ⟨rfl, h.1, h.2.1, (h.2.2 "wave").mpr (by decide), ?_⟩
  intro hmem
  exact absurd ((h.2.2 "fly").mp hmem) (by decide)

end Vitrus
